import Mathlib

/-!
Verification development for the swim-atlanta-utils enrollment-analysis
scripts.  The repository holds two near-duplicate command-line scripts
(called here the first variant and the second variant); both build a
session calendar from the parenthesized fragment of the `Session` column
(pass 1) and then classify enrollment rows against the calendar's first
class day plus a grace period (pass 2).

The embedding below follows the JavaScript source line by line:

  * `jsParseInt` models `parseInt(str, 10)` (longest decimal digit run
    after optional sign; `none` plays the role of `NaN`);
  * `extractParen` models the regex `\(([^)]+)\)` (first parenthesis pair
    with a nonempty body);
  * `tokenize` models `inner.split(/[ .]+/).filter(t => t.trim() !== '')`;
  * `parseSessionDates1` / `parseSessionDates2` model the two variants of
    `parseSessionDates` (the first has the "at most 3 day-like tokens"
    blacklist rule, the second does not);
  * `getFirstClassDay` models the calendar query (`null` becomes `none`);
  * `pass2Step1` / `pass2Step2` model one row of the second pass of each
    variant; a `none` result models a thrown TypeError
    (`monthNameStrings[month]` being `undefined` before `.toLowerCase()`).

Counters are exact integers: all values arising here are far below 2^53,
where JavaScript doubles are exact.
-/

/-- A resolved session date triple as pushed by `parseSessionDates`. -/
structure SDate where
  year : Int
  month : Nat
  day : Int
deriving DecidableEq

/-- The `monthNames` object: exact, case-sensitive lookup.  A defined
(`some`) result is exactly a truthy `monthNames[token]` in the source,
since all stored indices 1..12 are truthy. -/
def monthNames (t : String) : Option Nat :=
  if t = "January" then some 1
  else if t = "February" then some 2
  else if t = "March" then some 3
  else if t = "April" then some 4
  else if t = "May" then some 5
  else if t = "June" then some 6
  else if t = "July" then some 7
  else if t = "August" then some 8
  else if t = "September" then some 9
  else if t = "October" then some 10
  else if t = "November" then some 11
  else if t = "December" then some 12
  else none

/-- The `monthNameStrings` array (index 0 is the empty string). -/
def monthNameStrings : List String :=
  ["", "January", "February", "March", "April", "May", "June",
   "July", "August", "September", "October", "November", "December"]

/-- Decimal value of a digit run. -/
def digitsToNat (ds : List Char) : Nat :=
  ds.foldl (fun a c => a * 10 + (c.toNat - 48)) 0

/-- `parseInt(s, 10)`: skip leading whitespace, optional sign, then the
longest run of decimal digits; `none` models `NaN` (no digits). -/
def jsParseInt (s : String) : Option Int :=
  match s.toList.dropWhile Char.isWhitespace with
  | '-' :: rest =>
    let ds := rest.takeWhile Char.isDigit
    if ds.isEmpty then none else some (-(digitsToNat ds : Int))
  | '+' :: rest =>
    let ds := rest.takeWhile Char.isDigit
    if ds.isEmpty then none else some (digitsToNat ds : Int)
  | cs =>
    let ds := cs.takeWhile Char.isDigit
    if ds.isEmpty then none else some (digitsToNat ds : Int)

/-- The regex `\(([^)]+)\)`: leftmost `(` followed by a nonempty run of
non-`)` characters and a closing `)`; on failure the scan advances one
character, exactly like the regex engine's leftmost-match search. -/
def extractParen : List Char → Option (List Char)
  | [] => none
  | c :: cs =>
    if c = '(' then
      let inner := cs.takeWhile (fun d => d ≠ ')')
      if inner.isEmpty then extractParen cs
      else
        match cs.dropWhile (fun d => d ≠ ')') with
        | ')' :: _ => some inner
        | _ => extractParen cs
    else extractParen cs

/-- `str.trim()`: drop whitespace from both ends. -/
def trimChars (cs : List Char) : List Char :=
  ((cs.dropWhile Char.isWhitespace).reverse.dropWhile Char.isWhitespace).reverse

/-- `str.trim()` on a string. -/
def trimStr (s : String) : String := String.mk (trimChars s.toList)

/-- `str.toLowerCase()` on one character (the inputs here are ASCII). -/
def lowerChar (c : Char) : Char :=
  if 'A' ≤ c ∧ c ≤ 'Z' then Char.ofNat (c.toNat + 32) else c

/-- `str.toLowerCase()`. -/
def lowerStr (s : String) : String := String.mk (s.toList.map lowerChar)

/-- Character-list core of `str.startsWith(pre)`. -/
def startsWithList : List Char → List Char → Bool
  | _, [] => true
  | [], _ :: _ => false
  | c :: cs, p :: ps => (c == p) && startsWithList cs ps

/-- `str.startsWith(pre)`. -/
def startsWithStr (s p : String) : Bool := startsWithList s.toList p.toList

/-- `str.split('/')`: split at every slash, keeping empty pieces. -/
def splitSlash : List Char → List Char → List String
  | [], acc => [String.mk acc.reverse]
  | c :: cs, acc =>
    if c = '/' then String.mk acc.reverse :: splitSlash cs []
    else splitSlash cs (c :: acc)

/-- Separator class of the split regex `[ .]+`. -/
def isSep (c : Char) : Bool := c = ' ' || c = '.'

/-- Split on runs of spaces and periods, dropping empty pieces. -/
def splitToks : List Char → List Char → List String
  | [], acc => if acc.isEmpty then [] else [String.mk acc.reverse]
  | c :: cs, acc =>
    if isSep c then
      if acc.isEmpty then splitToks cs []
      else String.mk acc.reverse :: splitToks cs []
    else splitToks cs (c :: acc)

/-- `inner.split(/[ .]+/).filter(token => token.trim() !== '')`. -/
def tokenize (s : String) : List String :=
  (splitToks s.toList []).filter (fun t => trimStr t != "")

/-- `!monthNames[token] && !isNaN(parseInt(token, 10))`: a day-like
token is numeric and not a month name. -/
def dayLike (t : String) : Bool :=
  (monthNames t).isNone && (jsParseInt t).isSome

/-- The consecutive-days loop: each entry is exactly one more than its
predecessor. -/
def consecChain : Int → List Int → Bool
  | _, [] => true
  | prev, d :: ds => (d == prev + 1) && consecChain d ds

/-- The special pattern: exactly 5 tokens, the first a month name, the
remaining 4 all numeric and consecutive. -/
def specialFiveCheck (tokens : List String) : Bool :=
  match tokens with
  | [t0, t1, t2, t3, t4] =>
    (monthNames t0).isSome &&
      (match jsParseInt t1, jsParseInt t2, jsParseInt t3, jsParseInt t4 with
       | some d1, some d2, some d3, some d4 => consecChain d1 [d2, d3, d4]
       | _, _, _, _ => false)
  | _ => false

/-- The normal-resolution loop: a month token moves the cursor, a numeric
token with the cursor set emits a date; the year is bumped when the
enrollment month is strictly greater than the cursor month. -/
def normalParse (enrollYear enrollMonth : Int) :
    List String → Option Nat → List SDate
  | [], _ => []
  | t :: ts, cur =>
    match monthNames t with
    | some m => normalParse enrollYear enrollMonth ts (some m)
    | none =>
      match jsParseInt t with
      | some d =>
        match cur with
        | some m =>
          ⟨if enrollMonth > (m : Int) then enrollYear + 1 else enrollYear, m, d⟩
            :: normalParse enrollYear enrollMonth ts (some m)
        | none => normalParse enrollYear enrollMonth ts cur
      | none => normalParse enrollYear enrollMonth ts cur

/-- `parseSessionDates` of the first variant.  The boolean records
whether the raw session string is added to the blacklist (the source
push is guarded by an `includes` check, so the add is idempotent). -/
def parseSessionDates1 (sessionStr : String) (enrollYear enrollMonth : Int) :
    List SDate × Bool :=
  match extractParen sessionStr.toList with
  | none => ([], false)
  | some innerCs =>
    let tokens := tokenize (trimStr (String.mk innerCs))
    if (tokens.filter dayLike).length ≤ 3 then ([], true)
    else if specialFiveCheck tokens then ([], true)
    else (normalParse enrollYear enrollMonth tokens none, false)

/-- `parseSessionDates` of the second variant: identical except that it
has no day-like-token-count rule. -/
def parseSessionDates2 (sessionStr : String) (enrollYear enrollMonth : Int) :
    List SDate × Bool :=
  match extractParen sessionStr.toList with
  | none => ([], false)
  | some innerCs =>
    let tokens := tokenize (trimStr (String.mk innerCs))
    if specialFiveCheck tokens then ([], true)
    else (normalParse enrollYear enrollMonth tokens none, false)

/-- One CSV row as the handlers see it: a `none` field is an absent
column (`undefined`); `row.cls` is the optional `Class` column. -/
structure Row where
  enrollDate : Option String
  session : Option String
  cls : Option String

/-- JavaScript falsiness of `row[col]` for a string column: absent
(`undefined`) or the empty string. -/
def falsy : Option String → Bool
  | none => true
  | some s => s == ""

/-- `blacklistedSessions.includes(sessionStr)`; `includes(undefined)` on
a list of strings is always false. -/
def blContains (bl : List String) : Option String → Bool
  | some s => bl.contains s
  | none => false

/-- Read a column already checked to be non-falsy. -/
def getStr (o : Option String) : String := o.getD ""

/-- `row['Class'] || 'Unknown'`. -/
def catOf : Option String → String
  | none => "Unknown"
  | some s => if s = "" then "Unknown" else s

/-- The session calendar: the list of (year, month, day) records entered
by `addSessionDay`; the source keys a map by the string
`${year}-${month}` and stores a `Set` of days.  For months 1..12 those
key strings are in bijection with the (year, month) pairs, so the pairs
are used directly. -/
abbrev Calendar := List (Int × Nat × Int)

/-- `addSessionDay`: record a day under its (year, month) key; the `Set`
ignores an exact duplicate. -/
def addSessionDay (cal : Calendar) (y : Int) (m : Nat) (d : Int) : Calendar :=
  if cal.contains (y, m, d) then cal else (y, m, d) :: cal

/-- The days recorded under one (month, year) key. -/
def daysRecorded (cal : Calendar) (m : Int) (y : Int) : List Int :=
  (cal.filter (fun r => decide (r.1 = y ∧ (r.2.1 : Int) = m))).map (fun r => r.2.2)

/-- `getFirstClassDay`: `null` (here `none`) when the key has no days,
otherwise the minimum day (the source sorts ascending and takes the
first element). -/
def getFirstClassDay (cal : Calendar) (m : Int) (y : Int) : Option Int :=
  match daysRecorded cal m y with
  | [] => none
  | d :: ds => some (ds.foldl min d)

/-- `monthNameStrings[month]` as a JavaScript array access: `undefined`
(`none`) outside indices 0..12. -/
def monthNameAt (m : Int) : Option String :=
  if 0 ≤ m ∧ m < 13 then some (monthNameStrings.getD m.toNat "") else none

/-- Pass-2 state of the first variant.  `tallyIncs` is the list of
(key, class-category) increment events applied to
`monthlyEnrollmentCounts`; the count stored under a key and category is
the number of its events. -/
structure St1 where
  total : Nat
  afterCount : Nat
  tallyIncs : List ((Int × Int) × String)
deriving DecidableEq

/-- Pass-2 state of the second variant. -/
structure St2 where
  total : Nat
  afterCount : Nat
deriving DecidableEq

/-- The classification decision of one first-variant pass-2 row, after
the unconditional `totalEnrollmentRows++`:
`none` models the TypeError thrown when `monthNameStrings[month]` is
`undefined`; `some none` is a skipped row; `some (some (key, cat))` is a
counted row with its tally key and class category. -/
def pass2Classify1 (grace : Int) (bl : List String) (cal : Calendar)
    (row : Row) : Option (Option ((Int × Int) × String)) :=
  if blContains bl row.session then some none
  else if falsy row.enrollDate || falsy row.session then some none
  else
    let ds := getStr row.enrollDate
    let ss := getStr row.session
    match splitSlash ds.toList [] with
    | [p0, p1, p2] =>
      match jsParseInt p0, jsParseInt p1 with
      | some month, some day =>
        let yearOpt := jsParseInt p2
        match monthNameAt month with
        | none => none
        | some mname =>
          if startsWithStr (lowerStr ss) (lowerStr mname) then
            let inc : Bool :=
              match monthNames mname with
              | some idx => decide (month > (idx : Int))
              | none => false
            let yearOpt' := if inc then yearOpt.map (· + 1) else yearOpt
            match yearOpt' with
            | none => some none
            | some yv =>
              match getFirstClassDay cal month yv with
              | none => some none
              | some f =>
                if day > f + grace
                then some (some ((yv, month), catOf row.cls))
                else some none
          else some none
      | _, _ => some none
    | _ => some none

/-- Apply a classification outcome to the post-increment state. -/
def applyOut1 (st : St1) : Option ((Int × Int) × String) → St1
  | none => st
  | some (key, cat) =>
    { st with afterCount := st.afterCount + 1,
              tallyIncs := (key, cat) :: st.tallyIncs }

/-- One pass-2 row of the first variant. -/
def pass2Step1 (grace : Int) (bl : List String) (cal : Calendar)
    (st : St1) (row : Row) : Option St1 :=
  (pass2Classify1 grace bl cal row).map
    (fun out => applyOut1 { st with total := st.total + 1 } out)

/-- The classification decision of one second-variant pass-2 row.  The
variant hardcodes the 7-day grace period and has no null check on the
calendar query: `getFirstClassDay(month, year) + 7` coerces `null` to
`0`, which `Option.getD 0` reproduces. -/
def pass2Classify2 (bl : List String) (cal : Calendar) (row : Row) :
    Option Bool :=
  if blContains bl row.session then some false
  else if falsy row.enrollDate || falsy row.session then some false
  else
    let ds := getStr row.enrollDate
    let ss := getStr row.session
    match splitSlash ds.toList [] with
    | [p0, p1, p2] =>
      match jsParseInt p0, jsParseInt p1 with
      | some month, some day =>
        let yearOpt := jsParseInt p2
        match monthNameAt month with
        | none => none
        | some mname =>
          if startsWithStr (lowerStr ss) (lowerStr mname) then
            let inc : Bool :=
              match monthNames mname with
              | some idx => decide (month > (idx : Int))
              | none => false
            let yearOpt' := if inc then yearOpt.map (· + 1) else yearOpt
            let fcdOpt :=
              match yearOpt' with
              | none => none
              | some yv => getFirstClassDay cal month yv
            some (decide (day > fcdOpt.getD 0 + 7))
          else some false
      | _, _ => some false
    | _ => some false

/-- One pass-2 row of the second variant. -/
def pass2Step2 (bl : List String) (cal : Calendar)
    (st : St2) (row : Row) : Option St2 :=
  (pass2Classify2 bl cal row).map
    (fun counted =>
      { total := st.total + 1,
        afterCount := st.afterCount + (if counted then 1 else 0) })

/-- The whole second pass of the first variant over the row list; `none`
when a row throws. -/
def runPass2v1 (grace : Int) (bl : List String) (cal : Calendar) :
    List Row → St1 → Option St1
  | [], st => some st
  | r :: rs, st =>
    match pass2Step1 grace bl cal st r with
    | none => none
    | some st' => runPass2v1 grace bl cal rs st'

/-- The whole second pass of the second variant. -/
def runPass2v2 (bl : List String) (cal : Calendar) :
    List Row → St2 → Option St2
  | [], st => some st
  | r :: rs, st =>
    match pass2Step2 bl cal st r with
    | none => none
    | some st' => runPass2v2 bl cal rs st'

/-- A JavaScript number as produced by the final report's division:
either a finite value, an infinity, or `NaN`. -/
inductive JSNum where
  | nan
  | posInf
  | negInf
  | val (q : ℚ)
deriving DecidableEq

/-- JavaScript division of two nonnegative counters: `0 / 0` is `NaN`,
`a / 0` with `a > 0` is `Infinity`. -/
def jsDivNat (a b : Nat) : JSNum :=
  if b = 0 then (if a = 0 then JSNum.nan else JSNum.posInf)
  else JSNum.val ((a : ℚ) / (b : ℚ))

/-- Multiplication by 100 (NaN and infinities absorb). -/
def jsMul100 : JSNum → JSNum
  | JSNum.nan => JSNum.nan
  | JSNum.posInf => JSNum.posInf
  | JSNum.negInf => JSNum.negInf
  | JSNum.val q => JSNum.val (q * 100)

/-- The reported percentage
`enrollmentsAfterFirstWeekOfSession / totalEnrollmentRows * 100`,
computed unconditionally by both variants' completion handlers. -/
def reportDecimal (afterCount total : Nat) : JSNum :=
  jsMul100 (jsDivNat afterCount total)

/-- No month name parses as an integer (none starts with a digit or a
sign). -/
theorem monthNames_numeric_none (t : String) (m : Nat)
    (h : monthNames t = some m) : jsParseInt t = none := by
  unfold monthNames at h
  by_cases h1 : t = "January"
  · subst h1; decide
  rw [if_neg h1] at h
  by_cases h2 : t = "February"
  · subst h2; decide
  rw [if_neg h2] at h
  by_cases h3 : t = "March"
  · subst h3; decide
  rw [if_neg h3] at h
  by_cases h4 : t = "April"
  · subst h4; decide
  rw [if_neg h4] at h
  by_cases h5 : t = "May"
  · subst h5; decide
  rw [if_neg h5] at h
  by_cases h6 : t = "June"
  · subst h6; decide
  rw [if_neg h6] at h
  by_cases h7 : t = "July"
  · subst h7; decide
  rw [if_neg h7] at h
  by_cases h8 : t = "August"
  · subst h8; decide
  rw [if_neg h8] at h
  by_cases h9 : t = "September"
  · subst h9; decide
  rw [if_neg h9] at h
  by_cases h10 : t = "October"
  · subst h10; decide
  rw [if_neg h10] at h
  by_cases h11 : t = "November"
  · subst h11; decide
  rw [if_neg h11] at h
  by_cases h12 : t = "December"
  · subst h12; decide
  rw [if_neg h12] at h
  exact Option.noConfusion h

/-- Contrapositive: a numeric token is not a month name. -/
theorem monthNames_none_of_int (t : String) (d : Int)
    (h : jsParseInt t = some d) : monthNames t = none := by
  cases hm : monthNames t with
  | none => rfl
  | some m => rw [monthNames_numeric_none t m hm] at h; exact Option.noConfusion h

/-- A string without an opening parenthesis has no regex match. -/
theorem extractParen_none (cs : List Char) (h : '(' ∉ cs) :
    extractParen cs = none := by
  induction cs with
  | nil => rfl
  | cons c cs ih =>
    have hc : ¬ c = '(' := fun e => h (e ▸ List.mem_cons_self c cs)
    have hcs : '(' ∉ cs := fun e => h (List.mem_cons_of_mem c e)
    unfold extractParen
    rw [if_neg hc]
    exact ih hcs

/-- Every date emitted by the normal-resolution loop carries the year
inferred from its own month by the strictly-greater rule. -/
theorem normalParse_year (eY eM : Int) :
    ∀ (tokens : List String) (cur : Option Nat) (d : SDate),
      d ∈ normalParse eY eM tokens cur →
      d.year = if eM > (d.month : Int) then eY + 1 else eY := by
  intro tokens
  induction tokens with
  | nil => intro cur d hd; simp [normalParse] at hd
  | cons t ts ih =>
    intro cur d hd
    cases hmn : monthNames t with
    | some m =>
      simp only [normalParse, hmn] at hd
      exact ih (some m) d hd
    | none =>
      cases hpi : jsParseInt t with
      | none =>
        simp only [normalParse, hmn, hpi] at hd
        exact ih cur d hd
      | some dy =>
        cases cur with
        | none =>
          simp only [normalParse, hmn, hpi] at hd
          exact ih none d hd
        | some m =>
          simp only [normalParse, hmn, hpi] at hd
          rcases List.mem_cons.mp hd with h | h
          · subst h; rfl
          · exact ih (some m) d h

/-- With the cursor unset, tokens that are not month names are discarded
without emitting a date or an error. -/
theorem normalParse_no_month_skip (eY eM : Int) :
    ∀ (pre rest : List String), (∀ t ∈ pre, monthNames t = none) →
      normalParse eY eM (pre ++ rest) none = normalParse eY eM rest none := by
  intro pre
  induction pre with
  | nil => intro rest _; rfl
  | cons t ts ih =>
    intro rest hp
    have ht : monthNames t = none := hp t (List.mem_cons_self t ts)
    have hts : ∀ u ∈ ts, monthNames u = none :=
      fun u hu => hp u (List.mem_cons_of_mem t hu)
    rw [List.cons_append]
    cases hpi : jsParseInt t with
    | none =>
      simp only [normalParse, ht, hpi]
      exact ih rest hts
    | some dy =>
      simp only [normalParse, ht, hpi]
      exact ih rest hts

/-- Every first-variant pass-2 row that does not throw increments the
total-row counter exactly once. -/
theorem pass2Step1_total (grace : Int) (bl : List String) (cal : Calendar)
    (st st' : St1) (row : Row)
    (h : pass2Step1 grace bl cal st row = some st') :
    st'.total = st.total + 1 := by
  unfold pass2Step1 at h
  cases hc : pass2Classify1 grace bl cal row with
  | none => rw [hc] at h; exact Option.noConfusion h
  | some out =>
    rw [hc] at h
    injection h with h
    subst h
    cases out with
    | none => rfl
    | some kc => rfl

/-- Every second-variant pass-2 row that does not throw increments the
total-row counter exactly once. -/
theorem pass2Step2_total (bl : List String) (cal : Calendar)
    (st st' : St2) (row : Row)
    (h : pass2Step2 bl cal st row = some st') :
    st'.total = st.total + 1 := by
  unfold pass2Step2 at h
  cases hc : pass2Classify2 bl cal row with
  | none => rw [hc] at h; exact Option.noConfusion h
  | some b =>
    rw [hc] at h
    injection h with h
    subst h
    rfl

/-- A completed first-variant second pass adds the row count to the
total-row counter. -/
theorem runPass2v1_total (grace : Int) (bl : List String) (cal : Calendar) :
    ∀ (rows : List Row) (st st' : St1),
      runPass2v1 grace bl cal rows st = some st' →
      st'.total = st.total + rows.length := by
  intro rows
  induction rows with
  | nil =>
    intro st st' h
    unfold runPass2v1 at h
    injection h with h
    subst h
    simp
  | cons r rs ih =>
    intro st st' h
    unfold runPass2v1 at h
    cases hs : pass2Step1 grace bl cal st r with
    | none => rw [hs] at h; exact Option.noConfusion h
    | some st1 =>
      rw [hs] at h
      have h1 := pass2Step1_total grace bl cal st st1 r hs
      have h2 := ih st1 st' h
      rw [h2, h1, List.length_cons]
      omega

/-- A completed second-variant second pass adds the row count to the
total-row counter. -/
theorem runPass2v2_total (bl : List String) (cal : Calendar) :
    ∀ (rows : List Row) (st st' : St2),
      runPass2v2 bl cal rows st = some st' →
      st'.total = st.total + rows.length := by
  intro rows
  induction rows with
  | nil =>
    intro st st' h
    unfold runPass2v2 at h
    injection h with h
    subst h
    simp
  | cons r rs ih =>
    intro st st' h
    unfold runPass2v2 at h
    cases hs : pass2Step2 bl cal st r with
    | none => rw [hs] at h; exact Option.noConfusion h
    | some st1 =>
      rw [hs] at h
      have h1 := pass2Step2_total bl cal st st1 r hs
      have h2 := ih st1 st' h
      rw [h2, h1, List.length_cons]
      omega

/-- The first variant blacklists and returns no dates whenever the
parenthesized content has at most 3 day-like tokens. -/
theorem parseSessionDates1_few (s : String) (ey em : Int) (inner : List Char)
    (hx : extractParen s.toList = some inner)
    (hlen : ((tokenize (trimStr (String.mk inner))).filter dayLike).length ≤ 3) :
    parseSessionDates1 s ey em = ([], true) := by
  unfold parseSessionDates1
  rw [hx]
  simp only [if_pos hlen]

/-- A first-variant pass-2 row that reaches classification: counted
exactly when the enrollment day exceeds first-class-day plus grace. -/
theorem pass2Classify1_eq (grace : Int) (bl : List String) (cal : Calendar)
    (row : Row) (ds ss p0 p1 p2 mname : String) (month day year : Int)
    (midx : Nat) (yv f : Int)
    (hbl : blContains bl row.session = false)
    (hed : row.enrollDate = some ds)
    (hss : row.session = some ss)
    (hds : ds ≠ "") (hsse : ss ≠ "")
    (hsplit : splitSlash ds.toList [] = [p0, p1, p2])
    (hm : jsParseInt p0 = some month)
    (hd : jsParseInt p1 = some day)
    (hy : jsParseInt p2 = some year)
    (hname : monthNameAt month = some mname)
    (hstarts : startsWithStr (lowerStr ss) (lowerStr mname) = true)
    (hidx : monthNames mname = some midx)
    (hyv : yv = if month > (midx : Int) then year + 1 else year)
    (hf : getFirstClassDay cal month yv = some f) :
    pass2Classify1 grace bl cal row =
      some (if day > f + grace then some ((yv, month), catOf row.cls) else none) := by
  subst hyv
  have hfd : falsy (some ds) = false := by simp [falsy, hds]
  have hfs : falsy (some ss) = false := by simp [falsy, hsse]
  unfold pass2Classify1
  rw [hbl, hed, hss]
  simp only [hfd, hfs, Bool.or_self, Bool.false_eq_true, if_false, getStr,
    Option.getD_some]
  rw [hsplit]
  simp only [hm, hd, hy, hname, hstarts, hidx, if_true]
  by_cases hgt : month > (midx : Int)
  · rw [if_pos hgt] at hf
    rw [decide_eq_true hgt]
    simp only [if_true, Option.map_some', hf, if_pos hgt]
    by_cases hc : day > f + grace
    · simp [hc]
    · simp [hc]
  · rw [if_neg hgt] at hf
    rw [decide_eq_false hgt]
    simp only [Bool.false_eq_true, if_false, hf, if_neg hgt]
    by_cases hc : day > f + grace
    · simp [hc]
    · simp [hc]

/-- A first-variant pass-2 row whose session string does not start
(case-insensitively) with the enrollment month name is skipped. -/
theorem pass2Classify1_noStart (grace : Int) (bl : List String) (cal : Calendar)
    (row : Row) (ds ss p0 p1 p2 mname : String) (month day : Int)
    (hbl : blContains bl row.session = false)
    (hed : row.enrollDate = some ds)
    (hss : row.session = some ss)
    (hds : ds ≠ "") (hsse : ss ≠ "")
    (hsplit : splitSlash ds.toList [] = [p0, p1, p2])
    (hm : jsParseInt p0 = some month)
    (hd : jsParseInt p1 = some day)
    (hname : monthNameAt month = some mname)
    (hstarts : startsWithStr (lowerStr ss) (lowerStr mname) = false) :
    pass2Classify1 grace bl cal row = some none := by
  have hfd : falsy (some ds) = false := by simp [falsy, hds]
  have hfs : falsy (some ss) = false := by simp [falsy, hsse]
  unfold pass2Classify1
  rw [hbl, hed, hss]
  simp only [hfd, hfs, Bool.or_self, Bool.false_eq_true, if_false, getStr,
    Option.getD_some]
  rw [hsplit]
  simp only [hm, hd, hname, hstarts, Bool.false_eq_true, if_false]

/-- A second-variant pass-2 row whose session string does not start
(case-insensitively) with the enrollment month name is skipped. -/
theorem pass2Classify2_noStart (bl : List String) (cal : Calendar)
    (row : Row) (ds ss p0 p1 p2 mname : String) (month day : Int)
    (hbl : blContains bl row.session = false)
    (hed : row.enrollDate = some ds)
    (hss : row.session = some ss)
    (hds : ds ≠ "") (hsse : ss ≠ "")
    (hsplit : splitSlash ds.toList [] = [p0, p1, p2])
    (hm : jsParseInt p0 = some month)
    (hd : jsParseInt p1 = some day)
    (hname : monthNameAt month = some mname)
    (hstarts : startsWithStr (lowerStr ss) (lowerStr mname) = false) :
    pass2Classify2 bl cal row = some false := by
  have hfd : falsy (some ds) = false := by simp [falsy, hds]
  have hfs : falsy (some ss) = false := by simp [falsy, hsse]
  unfold pass2Classify2
  rw [hbl, hed, hss]
  simp only [hfd, hfs, Bool.or_self, Bool.false_eq_true, if_false, getStr,
    Option.getD_some]
  rw [hsplit]
  simp only [hm, hd, hname, hstarts, Bool.false_eq_true, if_false]

/-- C1: for a (month, year) key with no recorded session days the
first-class-day query returns the `none` sentinel — but in the second
variant's pass 2 such a row is NOT skipped: `null + 7` coerces the
missing first class day to 0, so a row with enrollment day 8 is counted,
whereas the first variant's explicit null check skips the same row. -/
theorem c1_none_sentinel_row_counted :
    getFirstClassDay [(2024, 6, 4)] 5 2024 = none ∧
    pass2Step2 [] [(2024, 6, 4)] ⟨0, 0⟩
        ⟨some "5/08/2024", some "May Swim (May 5 6 7 9)", none⟩ =
      some ⟨1, 1⟩ ∧
    pass2Step1 7 [] [(2024, 6, 4)] ⟨0, 0, []⟩
        ⟨some "5/08/2024", some "May Swim (May 5 6 7 9)", none⟩ =
      some ⟨1, 0, []⟩ := by
  refine ⟨by rfl, by rfl, by rfl⟩

/-- C2 counterexample: the second variant's resolver does not blacklist
a session whose parenthesized content has at most 3 day-like tokens —
"Spring 2024 (May 5)" has one day-like token yet yields the date
May 5, 2024 and is not blacklisted. -/
theorem c2_second_variant_keeps_short_session :
    extractParen ("Spring 2024 (May 5)").toList = some ("May 5").toList ∧
    ((tokenize "May 5").filter dayLike).length ≤ 3 ∧
    parseSessionDates2 "Spring 2024 (May 5)" 2024 4 =
      ([⟨2024, 5, 5⟩], false) := by
  refine ⟨by rfl, by decide, by rfl⟩

/-- C2 (amended): the first variant's resolver blacklists every session
whose parenthesized content has at most 3 day-like tokens and returns no
dates, so the session contributes no days to the session calendar. -/
theorem c2_first_variant_blacklists_short_session (s : String) (ey em : Int)
    (inner : List Char)
    (hx : extractParen s.toList = some inner)
    (hlen : ((tokenize (trimStr (String.mk inner))).filter dayLike).length ≤ 3) :
    parseSessionDates1 s ey em = ([], true) ∧
    ∀ cal : Calendar,
      ((parseSessionDates1 s ey em).1).foldl
        (fun c d => addSessionDay c d.year d.month d.day) cal = cal := by
  have h1 := parseSessionDates1_few s ey em inner hx hlen
  refine ⟨h1, fun cal => ?_⟩
  rw [h1]
  rfl

/-- C2 witness: the amended rule at the concrete session
"Spring 2024 (May 5)". -/
theorem c2_first_variant_blacklists_short_session_witness :
    parseSessionDates1 "Spring 2024 (May 5)" 2024 4 = ([], true) ∧
    ((parseSessionDates1 "Spring 2024 (May 5)" 2024 4).1).foldl
      (fun c d => addSessionDay c d.year d.month d.day) [(2024, 6, 4)] =
      [(2024, 6, 4)] :=
  ⟨(c2_first_variant_blacklists_short_session "Spring 2024 (May 5)" 2024 4
      ("May 5").toList (by rfl) (by decide)).1,
   (c2_first_variant_blacklists_short_session "Spring 2024 (May 5)" 2024 4
      ("May 5").toList (by rfl) (by decide)).2 [(2024, 6, 4)]⟩

/-- C3: with zero rows both variants' completion handlers still run the
division — the second pass completes with total 0 and the reported
percentage value is NaN; no distinct no-data outcome exists in the
code. -/
theorem c3_zero_rows_silent_nan :
    runPass2v2 [] [] [] ⟨0, 0⟩ = some ⟨0, 0⟩ ∧
    runPass2v1 7 [] [] [] ⟨0, 0, []⟩ = some ⟨0, 0, []⟩ ∧
    reportDecimal 0 0 = JSNum.nan := by
  refine ⟨by rfl, by rfl, by rfl⟩

/-- C10: day-token classification accepts tokens whose leading
characters parse as an integer even when followed by non-digits — "7th"
is day 7 and "5-6" is day 5; such tokens are day-like (counting toward
the at-most-3 threshold, blacklisting "(May 7th 8th)" in the first
variant) and, with the month cursor set, emit dates with the parsed
prefix as the day. -/
theorem c10_digit_prefix_tokens :
    jsParseInt "7th" = some 7 ∧ jsParseInt "5-6" = some 5 ∧
    dayLike "7th" = true ∧ dayLike "5-6" = true ∧
    ((tokenize "May 7th 8th").filter dayLike).length = 2 ∧
    parseSessionDates1 "Class (May 7th 8th)" 2024 6 = ([], true) ∧
    normalParse 2024 6 ["May", "7th", "5-6"] none =
      [⟨2025, 5, 7⟩, ⟨2025, 5, 5⟩] := by
  refine ⟨by rfl, by rfl, by rfl, by rfl, by rfl, by rfl, by rfl⟩

/-- C4: a first-variant pass-2 row that reaches classification with
first class day f and grace period G increments the after-grace counter
exactly when the enrollment day is strictly greater than f + G, and
every such increment appends exactly one MonthlyTally increment event
for ((year, month), class category), the category defaulting to
"Unknown" when the Class column is absent. -/
theorem c4_after_grace_threshold (grace : Int) (bl : List String)
    (cal : Calendar) (st : St1) (row : Row) (ds ss p0 p1 p2 mname : String)
    (month day year : Int) (midx : Nat) (yv f : Int)
    (hbl : blContains bl row.session = false)
    (hed : row.enrollDate = some ds)
    (hss : row.session = some ss)
    (hds : ds ≠ "") (hsse : ss ≠ "")
    (hsplit : splitSlash ds.toList [] = [p0, p1, p2])
    (hm : jsParseInt p0 = some month)
    (hd : jsParseInt p1 = some day)
    (hy : jsParseInt p2 = some year)
    (hname : monthNameAt month = some mname)
    (hstarts : startsWithStr (lowerStr ss) (lowerStr mname) = true)
    (hidx : monthNames mname = some midx)
    (hyv : yv = if month > (midx : Int) then year + 1 else year)
    (hf : getFirstClassDay cal month yv = some f) :
    pass2Step1 grace bl cal st row =
      some (if day > f + grace
        then { total := st.total + 1, afterCount := st.afterCount + 1,
               tallyIncs := ((yv, month), catOf row.cls) :: st.tallyIncs }
        else { total := st.total + 1, afterCount := st.afterCount,
               tallyIncs := st.tallyIncs }) ∧
    catOf none = "Unknown" := by
  constructor
  · unfold pass2Step1
    rw [pass2Classify1_eq grace bl cal row ds ss p0 p1 p2 mname month day year
      midx yv f hbl hed hss hds hsse hsplit hm hd hy hname hstarts hidx hyv hf]
    by_cases hc : day > f + grace
    · rw [if_pos hc, if_pos hc]
      rfl
    · rw [if_neg hc, if_neg hc]
      rfl
  · rfl

/-- C4 witness: with grace 7 and first class day 3 (May 2024), an
enrollment on day 11 is counted and tallied under ((2024, 5), Unknown),
while an enrollment on day 10 is not counted. -/
theorem c4_after_grace_threshold_witness :
    pass2Step1 7 [] [(2024, 5, 3)] ⟨0, 0, []⟩
        ⟨some "5/11/2024", some "May Swim (May 5 6 7 9)", none⟩ =
      some ⟨1, 1, [((2024, 5), "Unknown")]⟩ ∧
    pass2Step1 7 [] [(2024, 5, 3)] ⟨0, 0, []⟩
        ⟨some "5/10/2024", some "May Swim (May 5 6 7 9)", none⟩ =
      some ⟨1, 0, []⟩ := by
  constructor
  · have h := (c4_after_grace_threshold 7 [] [(2024, 5, 3)] ⟨0, 0, []⟩
      ⟨some "5/11/2024", some "May Swim (May 5 6 7 9)", none⟩
      "5/11/2024" "May Swim (May 5 6 7 9)" "5" "11" "2024" "May"
      5 11 2024 5 2024 3
      (by rfl) (by rfl) (by rfl) (by decide) (by decide) (by rfl) (by rfl)
      (by rfl) (by rfl) (by rfl) (by rfl) (by rfl) (by decide) (by rfl)).1
    rw [h]
    decide
  · have h := (c4_after_grace_threshold 7 [] [(2024, 5, 3)] ⟨0, 0, []⟩
      ⟨some "5/10/2024", some "May Swim (May 5 6 7 9)", none⟩
      "5/10/2024" "May Swim (May 5 6 7 9)" "5" "10" "2024" "May"
      5 10 2024 5 2024 3
      (by rfl) (by rfl) (by rfl) (by decide) (by decide) (by rfl) (by rfl)
      (by rfl) (by rfl) (by rfl) (by rfl) (by rfl) (by decide) (by rfl)).1
    rw [h]
    decide

/-- C8: in both variants a pass-2 row whose Session string does not
start, case-insensitively, with the month name derived from the
enrollment month number is skipped (only the total counter moves); the
comparison lowercases both sides, so a Session beginning "MAY" passes
the filter for enrollment month 5 and is classified. -/
theorem c8_month_name_filter :
    (∀ (grace : Int) (bl : List String) (cal : Calendar) (st : St1)
       (row : Row) (ds ss p0 p1 p2 mname : String) (month day : Int),
       blContains bl row.session = false →
       row.enrollDate = some ds → row.session = some ss →
       ds ≠ "" → ss ≠ "" →
       splitSlash ds.toList [] = [p0, p1, p2] →
       jsParseInt p0 = some month → jsParseInt p1 = some day →
       monthNameAt month = some mname →
       startsWithStr (lowerStr ss) (lowerStr mname) = false →
       pass2Step1 grace bl cal st row =
         some { total := st.total + 1, afterCount := st.afterCount,
                tallyIncs := st.tallyIncs }) ∧
    (∀ (bl : List String) (cal : Calendar) (st : St2) (row : Row)
       (ds ss p0 p1 p2 mname : String) (month day : Int),
       blContains bl row.session = false →
       row.enrollDate = some ds → row.session = some ss →
       ds ≠ "" → ss ≠ "" →
       splitSlash ds.toList [] = [p0, p1, p2] →
       jsParseInt p0 = some month → jsParseInt p1 = some day →
       monthNameAt month = some mname →
       startsWithStr (lowerStr ss) (lowerStr mname) = false →
       pass2Step2 bl cal st row =
         some { total := st.total + 1, afterCount := st.afterCount }) ∧
    monthNameAt 5 = some "May" ∧
    startsWithStr (lowerStr "MAY (May 5 6 7 9)") (lowerStr "May") = true ∧
    pass2Step1 7 [] [(2024, 5, 1)] ⟨0, 0, []⟩
        ⟨some "5/20/2024", some "MAY (May 5 6 7 9)", none⟩ =
      some ⟨1, 1, [((2024, 5), "Unknown")]⟩ := by
  refine ⟨?_, ?_, by rfl, by rfl, by rfl⟩
  · intro grace bl cal st row ds ss p0 p1 p2 mname month day hbl hed hss hds
      hsse hsplit hm hd hname hstarts
    unfold pass2Step1
    rw [pass2Classify1_noStart grace bl cal row ds ss p0 p1 p2 mname month day
      hbl hed hss hds hsse hsplit hm hd hname hstarts]
    rfl
  · intro bl cal st row ds ss p0 p1 p2 mname month day hbl hed hss hds
      hsse hsplit hm hd hname hstarts
    unfold pass2Step2
    rw [pass2Classify2_noStart bl cal row ds ss p0 p1 p2 mname month day
      hbl hed hss hds hsse hsplit hm hd hname hstarts]
    rfl

/-- C8 witness: a June enrollment whose Session begins "May" fails the
filter in both variants and is skipped with only the total counter
incremented. -/
theorem c8_month_name_filter_witness :
    pass2Step1 7 [] [(2024, 5, 1)] ⟨0, 0, []⟩
        ⟨some "6/15/2024", some "May Swim (May 5 6 7 9)", none⟩ =
      some ⟨1, 0, []⟩ ∧
    pass2Step2 [] [(2024, 5, 1)] ⟨0, 0⟩
        ⟨some "6/15/2024", some "May Swim (May 5 6 7 9)", none⟩ =
      some ⟨1, 0⟩ :=
  ⟨c8_month_name_filter.1 7 [] [(2024, 5, 1)] ⟨0, 0, []⟩
      ⟨some "6/15/2024", some "May Swim (May 5 6 7 9)", none⟩
      "6/15/2024" "May Swim (May 5 6 7 9)" "6" "15" "2024" "June" 6 15
      (by rfl) (by rfl) (by rfl) (by decide) (by decide) (by rfl) (by rfl)
      (by rfl) (by rfl) (by rfl),
   c8_month_name_filter.2.1 [] [(2024, 5, 1)] ⟨0, 0⟩
      ⟨some "6/15/2024", some "May Swim (May 5 6 7 9)", none⟩
      "6/15/2024" "May Swim (May 5 6 7 9)" "6" "15" "2024" "June" 6 15
      (by rfl) (by rfl) (by rfl) (by decide) (by decide) (by rfl) (by rfl)
      (by rfl) (by rfl) (by rfl)⟩

/-- C5: in both variants a session whose parenthesized content is
exactly 5 tokens — a recognized month followed by 4 integers each one
greater than its predecessor — is blacklisted and returns no dates,
while the non-consecutive "May 5 6 7 9" is not blacklisted and resolves
to May 5, 6, 7 and 9, the year being the enrollment year plus one
exactly when the enrollment month exceeds 5. -/
theorem c5_consecutive_block (s : String) (ey em : Int) (inner : List Char)
    (t0 t1 t2 t3 t4 : String) (m : Nat) (d1 d2 d3 d4 : Int)
    (hx : extractParen s.toList = some inner)
    (htoks : tokenize (trimStr (String.mk inner)) = [t0, t1, t2, t3, t4])
    (hm0 : monthNames t0 = some m)
    (h1 : jsParseInt t1 = some d1) (h2 : jsParseInt t2 = some d2)
    (h3 : jsParseInt t3 = some d3) (h4 : jsParseInt t4 = some d4)
    (hc2 : d2 = d1 + 1) (hc3 : d3 = d2 + 1) (hc4 : d4 = d3 + 1) :
    (parseSessionDates1 s ey em = ([], true) ∧
     parseSessionDates2 s ey em = ([], true)) ∧
    (∀ Y M : Int,
      parseSessionDates1 "May Swim (May 5 6 7 9)" Y M =
        ([⟨if M > 5 then Y + 1 else Y, 5, 5⟩,
          ⟨if M > 5 then Y + 1 else Y, 5, 6⟩,
          ⟨if M > 5 then Y + 1 else Y, 5, 7⟩,
          ⟨if M > 5 then Y + 1 else Y, 5, 9⟩], false) ∧
      parseSessionDates2 "May Swim (May 5 6 7 9)" Y M =
        ([⟨if M > 5 then Y + 1 else Y, 5, 5⟩,
          ⟨if M > 5 then Y + 1 else Y, 5, 6⟩,
          ⟨if M > 5 then Y + 1 else Y, 5, 7⟩,
          ⟨if M > 5 then Y + 1 else Y, 5, 9⟩], false)) := by
  subst hc2
  subst hc3
  subst hc4
  have hspec : specialFiveCheck [t0, t1, t2, t3, t4] = true := by
    simp [specialFiveCheck, hm0, h1, h2, h3, h4, consecChain]
  have e0 : dayLike t0 = false := by simp [dayLike, hm0]
  have e1 : dayLike t1 = true := by
    simp [dayLike, monthNames_none_of_int t1 _ h1, h1]
  have e2 : dayLike t2 = true := by
    simp [dayLike, monthNames_none_of_int t2 _ h2, h2]
  have e3 : dayLike t3 = true := by
    simp [dayLike, monthNames_none_of_int t3 _ h3, h3]
  have e4 : dayLike t4 = true := by
    simp [dayLike, monthNames_none_of_int t4 _ h4, h4]
  have hlen : ¬ (([t0, t1, t2, t3, t4].filter dayLike).length ≤ 3) := by
    simp [List.filter, e0, e1, e2, e3, e4]
  refine ⟨⟨?_, ?_⟩, fun Y M => ⟨by rfl, by rfl⟩⟩
  · unfold parseSessionDates1
    rw [hx]
    simp only [htoks]
    rw [if_neg hlen]
    simp only [hspec, if_true]
  · unfold parseSessionDates2
    rw [hx]
    simp only [htoks]
    simp only [hspec, if_true]

/-- C5 witness: the consecutive block "May Swim (May 5 6 7 8)" is
blacklisted by both variants. -/
theorem c5_consecutive_block_witness :
    parseSessionDates1 "May Swim (May 5 6 7 8)" 2024 4 = ([], true) ∧
    parseSessionDates2 "May Swim (May 5 6 7 8)" 2024 4 = ([], true) :=
  (c5_consecutive_block "May Swim (May 5 6 7 8)" 2024 4
    ("May 5 6 7 8").toList "May" "5" "6" "7" "8" 5 5 6 7 8
    (by rfl) (by rfl) (by rfl) (by rfl) (by rfl) (by rfl) (by rfl)
    (by decide) (by decide) (by decide)).1

/-- C6: every date emitted by the normal-resolution loop has year equal
to the enrollment year plus one exactly when the enrollment month is
strictly greater than the date's (cursor) month and the enrollment year
otherwise; and any run of non-month tokens before the first month token
is discarded without emitting a date or an error. -/
theorem c6_year_inference :
    (∀ (eY eM : Int) (tokens : List String) (d : SDate),
        d ∈ normalParse eY eM tokens none →
        d.year = if eM > (d.month : Int) then eY + 1 else eY) ∧
    (∀ (eY eM : Int) (pre rest : List String),
        (∀ t ∈ pre, monthNames t = none) →
        normalParse eY eM (pre ++ rest) none = normalParse eY eM rest none) :=
  ⟨fun eY eM tokens d hd => normalParse_year eY eM tokens none d hd,
   fun eY eM pre rest hp => normalParse_no_month_skip eY eM pre rest hp⟩

/-- C6 witness: the date May 7 emitted for a June 2024 enrollment has
year 2025, and a leading day token before any month token is
discarded. -/
theorem c6_year_inference_witness :
    (⟨2025, 5, 7⟩ : SDate) ∈ normalParse 2024 6 ["May", "7"] none ∧
    (⟨2025, 5, 7⟩ : SDate).year =
      (if (6 : Int) > ((5 : Nat) : Int) then 2024 + 1 else 2024) ∧
    normalParse 2024 6 (["7"] ++ ["May", "9"]) none =
      normalParse 2024 6 ["May", "9"] none := by
  refine ⟨by decide, ?_, ?_⟩
  · exact c6_year_inference.1 2024 6 ["May", "7"] ⟨2025, 5, 7⟩ (by decide)
  · exact c6_year_inference.2 2024 6 ["7"] ["May", "9"]
      (by intro t ht; rw [List.mem_singleton] at ht; subst ht; rfl)

/-- C7: a session string with no opening parenthesis has no regex
match, and any session string without a regex match yields zero dates
and is not blacklisted, in both variants. -/
theorem c7_no_parentheses :
    (∀ s : String, '(' ∉ s.toList → extractParen s.toList = none) ∧
    (∀ (s : String) (ey em : Int), extractParen s.toList = none →
      parseSessionDates1 s ey em = ([], false) ∧
      parseSessionDates2 s ey em = ([], false)) := by
  constructor
  · intro s h
    exact extractParen_none s.toList h
  · intro s ey em hx
    constructor
    · unfold parseSessionDates1
      rw [hx]
    · unfold parseSessionDates2
      rw [hx]

/-- C7 witness: "May Swim Mondays" has no parentheses, produces no
dates and is not blacklisted. -/
theorem c7_no_parentheses_witness :
    extractParen ("May Swim Mondays").toList = none ∧
    parseSessionDates1 "May Swim Mondays" 2024 5 = ([], false) ∧
    parseSessionDates2 "May Swim Mondays" 2024 5 = ([], false) :=
  ⟨c7_no_parentheses.1 "May Swim Mondays" (by decide),
   (c7_no_parentheses.2 "May Swim Mondays" 2024 5
     (c7_no_parentheses.1 "May Swim Mondays" (by decide))).1,
   (c7_no_parentheses.2 "May Swim Mondays" 2024 5
     (c7_no_parentheses.1 "May Swim Mondays" (by decide))).2⟩

/-- C9: in both variants a completed second pass ends with the
total-row counter equal to its starting value plus the number of input
rows — every row, including blacklisted, missing-column and
malformed-date rows, increments it exactly once. -/
theorem c9_total_row_counter :
    (∀ (grace : Int) (bl : List String) (cal : Calendar) (rows : List Row)
        (st st' : St1),
        runPass2v1 grace bl cal rows st = some st' →
        st'.total = st.total + rows.length) ∧
    (∀ (bl : List String) (cal : Calendar) (rows : List Row) (st st' : St2),
        runPass2v2 bl cal rows st = some st' →
        st'.total = st.total + rows.length) :=
  ⟨fun grace bl cal rows st st' h =>
     runPass2v1_total grace bl cal rows st st' h,
   fun bl cal rows st st' h => runPass2v2_total bl cal rows st st' h⟩

/-- C9 witness: a run over one blacklisted row, one missing-column row
and one malformed-date row ends with total 3. -/
theorem c9_total_row_counter_witness :
    runPass2v1 7 ["Apr (x)"] []
        [⟨some "5/11/2024", some "Apr (x)", none⟩,
         ⟨none, some "May (x)", none⟩,
         ⟨some "5-11-2024", some "May (x)", none⟩] ⟨0, 0, []⟩ =
      some ⟨3, 0, []⟩ ∧
    (3 : Nat) = 0 + 3 ∧
    runPass2v2 ["Apr (x)"] []
        [⟨some "5/11/2024", some "Apr (x)", none⟩,
         ⟨none, some "May (x)", none⟩] ⟨0, 0⟩ =
      some ⟨2, 0⟩ ∧
    (2 : Nat) = 0 + 2 := by
  refine ⟨by rfl, ?_, by rfl, ?_⟩
  · exact c9_total_row_counter.1 7 ["Apr (x)"] []
      [⟨some "5/11/2024", some "Apr (x)", none⟩,
       ⟨none, some "May (x)", none⟩,
       ⟨some "5-11-2024", some "May (x)", none⟩] ⟨0, 0, []⟩ ⟨3, 0, []⟩
      (by rfl)
  · exact c9_total_row_counter.2 ["Apr (x)"] []
      [⟨some "5/11/2024", some "Apr (x)", none⟩,
       ⟨none, some "May (x)", none⟩] ⟨0, 0⟩ ⟨2, 0⟩ (by rfl)
